import Mathlib

/-!
Shallow embedding of the pintos-kaist periodic timer subsystem
(`devices/timer.c`) and proofs about its specification claims.

Modelling conventions:
* C `int64_t` values (`ticks`, `global_tick`, deadlines) are `Int`; the
  64-bit counter never wraps in any reachable scenario the claims touch.
* The C `unsigned` (32-bit) `loops_per_tick` is a `Nat`, with the one shift
  that can overflow (`loops_per_tick << 1` in `timer_calibrate`) taken
  explicitly modulo `2 ^ 32`.
* C signed division/modulus truncate toward zero, so they are `Int.tdiv`
  and `Int.tmod`.
* Calls into the external scheduler (`thread_tick`, `thread_sleep`,
  `wake_up`) and the spin loop `busy_wait` are recorded as events; the
  timer core itself gives them no further semantics.
* A failed `ASSERT` halts the kernel; an operation that can halt returns
  `Except TimerState ...` whose `error` carries the state at the instant
  of the halt, so "no state was modified before the halt" is expressible.
* `too_many_loops` measures real time, which a shallow embedding cannot
  reproduce, so `timer_calibrate` is parameterized by an oracle
  `tml : Nat → Bool` standing for the measurement; the calibration
  claims quantify over the oracle.
* `TIMER_FREQ` comes from the build (`devices/timer.h`, not part of the
  sources), so every definition that uses it takes `freq` as a parameter;
  concrete claims instantiate `freq = 100` as the spec does.
-/

namespace Timer

/-- Interrupt level, mirroring `enum intr_level` (`INTR_ON` / `INTR_OFF`). -/
inductive IntrLevel where
  | ON : IntrLevel
  | OFF : IntrLevel
deriving DecidableEq, Repr

/-- The timer core's mutable state: the static variables of `timer.c`
plus the processor interrupt flag that `intr_disable` / `intr_set_level`
toggle. -/
structure TimerState where
  ticks : Int
  global_tick : Int
  loops_per_tick : Nat
  intr : IntrLevel
deriving DecidableEq, Repr

/-- The C constant `INT64_MAX`, the "no pending wake" sentinel that
`global_tick` starts at. -/
def INT64_MAX : Int := 9223372036854775807

/-- Observable calls the timer core makes into its collaborators: the
scheduler hooks `thread_tick`, `thread_sleep`, `wake_up`, and the spin
primitive `busy_wait` with its iteration count. -/
inductive Ev where
  | thread_tick : Ev
  | wake_up (t : Int) : Ev
  | thread_sleep (deadline : Int) : Ev
  | busy_wait (loops : Int) : Ev
deriving DecidableEq, Repr

/-- State at boot: the static initializers of `timer.c`
(`ticks = 0`, `global_tick = INT64_MAX`, `loops_per_tick` zeroed) with
interrupts enabled. -/
def bootState : TimerState :=
  { ticks := 0, global_tick := INT64_MAX, loops_per_tick := 0, intr := IntrLevel.ON }

/-- Model of `intr_disable`: returns the previous level and masks
interrupts. -/
def intr_disable (s : TimerState) : IntrLevel × TimerState :=
  (s.intr, { s with intr := IntrLevel.OFF })

/-- Model of `intr_set_level`. -/
def intr_set_level (s : TimerState) (l : IntrLevel) : TimerState :=
  { s with intr := l }

/-- Embeds `timer_ticks`: disable interrupts, copy the counter, restore
the previous level, return the copy.  The `barrier ()` is a compiler
fence with no state effect. -/
def timer_ticks (s : TimerState) : Int × TimerState :=
  let p := intr_disable s
  let t := p.2.ticks
  (t, intr_set_level p.2 p.1)

/-- Embeds `timer_elapsed`: `timer_ticks () - then`. -/
def timer_elapsed (s : TimerState) (since : Int) : Int × TimerState :=
  let p := timer_ticks s
  (p.1 - since, p.2)

/-- Embeds `timer_interrupt`: increment `ticks`, call `thread_tick ()`,
then `if (global_tick < ticks) wake_up (ticks);`. -/
def timer_interrupt (s : TimerState) : TimerState × List Ev :=
  let s1 := { s with ticks := s.ticks + 1 }
  (s1, Ev.thread_tick ::
    (if s1.global_tick < s1.ticks then [Ev.wake_up s1.ticks] else []))

/-- Embeds `timer_sleep`: inside an interrupt-masked section, read
`start = timer_ticks ()`, lower `global_tick` to
`MIN (global_tick, start + ticks)`, call `thread_sleep (start + ticks)`,
then restore the interrupt level saved on entry. -/
def timer_sleep (s : TimerState) (t : Int) : TimerState × List Ev :=
  let p := intr_disable s
  let q := timer_ticks p.2
  let start := q.1
  let s3 := { q.2 with global_tick := min q.2.global_tick (start + t) }
  (intr_set_level s3 p.1, [Ev.thread_sleep (start + t)])

/-- Embeds `real_time_sleep (num, denom)` at tick frequency `freq`:
compute `ticks = num * TIMER_FREQ / denom` (C division, truncating
toward zero), `ASSERT (intr_get_level () == INTR_ON)`, then either
delegate to `timer_sleep` (when `ticks > 0`) or
`ASSERT (denom % 1000 == 0)` and spin for
`loops_per_tick * num / 1000 * TIMER_FREQ / (denom / 1000)` iterations,
with C's left-to-right grouping. -/
def real_time_sleep (freq : Int) (s : TimerState) (num denom : Int) :
    Except TimerState (TimerState × List Ev) :=
  let t := Int.tdiv (num * freq) denom
  if s.intr = IntrLevel.ON then
    if 0 < t then
      Except.ok (timer_sleep s t)
    else
      if Int.tmod denom 1000 = 0 then
        Except.ok (s,
          [Ev.busy_wait
            (Int.tdiv (Int.tdiv ((s.loops_per_tick : Int) * num) 1000 * freq)
              (Int.tdiv denom 1000))])
      else
        Except.error s
  else
    Except.error s

/-- Embeds `timer_msleep`: `real_time_sleep (ms, 1000)`. -/
def timer_msleep (freq : Int) (s : TimerState) (ms : Int) :
    Except TimerState (TimerState × List Ev) :=
  real_time_sleep freq s ms 1000

/-- Embeds `timer_usleep`: `real_time_sleep (us, 1000 * 1000)`. -/
def timer_usleep (freq : Int) (s : TimerState) (us : Int) :
    Except TimerState (TimerState × List Ev) :=
  real_time_sleep freq s us (1000 * 1000)

/-- Embeds `timer_nsleep`: `real_time_sleep (ns, 1000 * 1000 * 1000)`. -/
def timer_nsleep (freq : Int) (s : TimerState) (ns : Int) :
    Except TimerState (TimerState × List Ev) :=
  real_time_sleep freq s ns (1000 * 1000 * 1000)

/-- The divisor computation of `timer_init` at tick frequency `freq`:
`uint16_t count = (1193180 + TIMER_FREQ / 2) / TIMER_FREQ;` — the store
into a `uint16_t` truncates modulo `2 ^ 16`. -/
def timer_init_count (freq : Nat) : Nat :=
  ((1193180 + freq / 2) / freq) % 65536

/-- Modelled from the spec's words, for comparison with
`timer_init_count`: the nearest integer to `a / b` with ties rounded up,
written as `⌊(a + b / 2) / b⌋` over the rationals, i.e.
`(2 * a + b) / (2 * b)` in integer arithmetic. -/
def roundTiesUp (a b : Nat) : Nat := (2 * a + b) / (2 * b)

/-- The geometric phase of `timer_calibrate`, parameterized by the
measurement oracle `tml` (for `too_many_loops`):
`while (!too_many_loops (loops_per_tick << 1)) { loops_per_tick <<= 1;
ASSERT (loops_per_tick != 0); }`.  The 32-bit shift is taken mod
`2 ^ 32`; a failed `ASSERT` yields `error` carrying the value of
`loops_per_tick` at the halt.  The loop runs at most 22 times from its
real start value `1024`, so the structural `fuel` argument (always
called with `40`) never runs out; the fuel-exhausted branch returns
`error` as well. -/
def geomGo (tml : Nat → Bool) : Nat → Nat → Except Nat Nat
  | lpt, 0 => Except.error lpt
  | lpt, fuel + 1 =>
    if tml ((lpt * 2) % 2 ^ 32) then Except.ok lpt
    else
      let l := (lpt * 2) % 2 ^ 32
      if l = 0 then Except.error l else geomGo tml l fuel

/-- The refinement loop of `timer_calibrate`:
`for (test_bit = high_bit >> 1; test_bit != high_bit >> 10; test_bit >>= 1)
  if (!too_many_loops (high_bit | test_bit)) loops_per_tick |= test_bit;`
with `stop = high_bit >> 10` passed explicitly and `acc` the running
`loops_per_tick`.  From any power-of-two `high_bit` the loop takes
exactly 9 iterations, so the structural `fuel` (always called with `16`)
never runs out. -/
def refineGo (tml : Nat → Bool) (high_bit stop : Nat) :
    Nat → Nat → Nat → Nat
  | _, acc, 0 => acc
  | test_bit, acc, fuel + 1 =>
    if test_bit = stop then acc
    else
      refineGo tml high_bit stop (test_bit >>> 1)
        (if tml (high_bit ||| test_bit) then acc else acc ||| test_bit) fuel

/-- The `loops_per_tick` computation of `timer_calibrate`: start at
`1u << 10`, run the geometric phase, then refine with
`high_bit = loops_per_tick`, `test_bit` from `high_bit >> 1`, stopping
at `high_bit >> 10`. -/
def calibrateCore (tml : Nat → Bool) : Except Nat Nat :=
  match geomGo tml (1 <<< 10) 40 with
  | Except.error l => Except.error l
  | Except.ok h => Except.ok (refineGo tml h (h >>> 10) (h >>> 1) h 16)

/-- Modelled from the spec's words, for comparison with `refineGo`: the
refinement loop as the claim describes it — each lower bit position from
`high_bit >> 1` down to `high_bit >> 10` inclusive (so stopping at
`high_bit >> 11`) is tentatively OR-ed into the accumulated value, which
retains previously accepted bits, and is kept exactly when the oracle
reports false on that accumulated candidate. -/
def refineClaimGo (tml : Nat → Bool) (stop : Nat) : Nat → Nat → Nat → Nat
  | _, acc, 0 => acc
  | test_bit, acc, fuel + 1 =>
    if test_bit = stop then acc
    else
      refineClaimGo tml stop (test_bit >>> 1)
        (if tml (acc ||| test_bit) then acc else acc ||| test_bit) fuel

/-- Modelled from the spec's words: `calibrateCore` with the refinement
phase replaced by the claim's version (`refineClaimGo`). -/
def calibrateClaim (tml : Nat → Bool) : Except Nat Nat :=
  match geomGo tml (1 <<< 10) 40 with
  | Except.error l => Except.error l
  | Except.ok h => Except.ok (refineClaimGo tml (h >>> 11) (h >>> 1) h 16)

/-- Embeds `timer_calibrate` at the state level:
`ASSERT (intr_get_level () == INTR_ON)` before any state is touched,
then compute `loops_per_tick` via `calibrateCore`.  A halt inside the
calibration loop carries the partially written state. -/
def timer_calibrate (s : TimerState) (tml : Nat → Bool) :
    Except TimerState TimerState :=
  if s.intr = IntrLevel.ON then
    match calibrateCore tml with
    | Except.error l => Except.error { s with loops_per_tick := l }
    | Except.ok l => Except.ok { s with loops_per_tick := l }
  else
    Except.error s

/-- A monotone measurement oracle: `n` iterations overrun the tick
exactly when `n` exceeds the threshold `T`.  Used to instantiate the
calibration claims on concrete inputs. -/
def thresholdOracle (T n : Nat) : Bool := T < n

/-- The operations of the timer core that run after boot, as an
alphabet for execution traces.  `interrupt` is a delivered hardware
tick; the rest are the exported thread-context entry points. -/
inductive Op where
  | interrupt : Op
  | sleep (t : Int) : Op
  | readTicks : Op
  | elapsed (since : Int) : Op
  | printStats : Op
  | calibrate (tml : Nat → Bool) : Op
  | msleep (ms : Int) : Op
  | usleep (us : Int) : Op
  | nsleep (ns : Int) : Op

/-- One operation of the timer core, with its emitted events; `error`
is a kernel halt carrying the state at the halt. -/
def stepE (freq : Int) (s : TimerState) : Op → Except TimerState (TimerState × List Ev)
  | Op.interrupt => Except.ok (timer_interrupt s)
  | Op.sleep t => Except.ok (timer_sleep s t)
  | Op.readTicks => Except.ok ((timer_ticks s).2, [])
  | Op.elapsed since => Except.ok ((timer_elapsed s since).2, [])
  | Op.printStats => Except.ok ((timer_ticks s).2, [])
  | Op.calibrate tml =>
    match timer_calibrate s tml with
    | Except.error h => Except.error h
    | Except.ok s1 => Except.ok (s1, [])
  | Op.msleep ms => timer_msleep freq s ms
  | Op.usleep us => timer_usleep freq s us
  | Op.nsleep ns => timer_nsleep freq s ns

/-- Run a list of operations from a state, collecting the event trace;
stops at the first kernel halt. -/
def run (freq : Int) (s : TimerState) : List Op → Except TimerState (TimerState × List Ev)
  | [] => Except.ok (s, [])
  | op :: ops =>
    match stepE freq s op with
    | Except.error h => Except.error h
    | Except.ok (s1, e1) =>
      match run freq s1 ops with
      | Except.error h => Except.error h
      | Except.ok (s2, e2) => Except.ok (s2, e1 ++ e2)

/-- Number of delivered hardware ticks in an operation list. -/
def countInterrupts : List Op → Nat
  | [] => 0
  | Op.interrupt :: ops => countInterrupts ops + 1
  | _ :: ops => countInterrupts ops

/-- The deadlines handed to the scheduler's `thread_sleep` in a trace. -/
def sleepDeadlines (tr : List Ev) : List Int :=
  tr.filterMap fun e =>
    match e with
    | Ev.thread_sleep d => some d
    | _ => none

/-- Modelled from the spec's words, for comparison with the busy-wait
argument of `real_time_sleep`: the spin count
`LoopsPerTick * (numerator / 1000) * tick_frequency / (denominator / 1000)`
with the numerator divided by 1000 before the multiplication by
`LoopsPerTick`. -/
def busy_wait_loops_claim (lpt num freq denom : Int) : Int :=
  Int.tdiv (lpt * Int.tdiv num 1000 * freq) (Int.tdiv denom 1000)

/-- A post-calibration state: boot state with `loops_per_tick` set to
one million, used to instantiate the sub-tick sleep claims. -/
def lptState : TimerState :=
  { ticks := 0, global_tick := INT64_MAX, loops_per_tick := 1000000,
    intr := IntrLevel.ON }

/-- Boot state with interrupts masked, used to instantiate the
assertion-failure claims. -/
def offState : TimerState :=
  { ticks := 0, global_tick := INT64_MAX, loops_per_tick := 0,
    intr := IntrLevel.OFF }

/-- The exponent list `[s + d, s + d - 1, ..., s + 1]`, the bit
positions visited by the calibration refinement loop written as powers
of two. -/
def descExps (s : Nat) : Nat → List Nat
  | 0 => []
  | d + 1 => (s + d + 1) :: descExps s d

/-- Closed form of `timer_sleep`: the watermark is lowered to the
minimum of its old value and `start + ticks`, the deadline is handed to
`thread_sleep`, everything else (the interrupt level included) is
restored. -/
theorem timer_sleep_eq (s : TimerState) (t : Int) :
    timer_sleep s t =
      ({ s with global_tick := min s.global_tick (s.ticks + t) },
        [Ev.thread_sleep (s.ticks + t)]) := by
  cases s
  rfl

/-- C5: `timer_sleep t` reads `start = timer_ticks ()`, lowers the
watermark to `min (global_tick, start + t)`, hands the deadline
`start + t` to `thread_sleep`, and restores the interrupt level to its
value at entry rather than unconditionally enabling interrupts. -/
theorem C5_timer_sleep_contract (s : TimerState) (t : Int) :
    timer_sleep s t =
      ({ s with global_tick := min s.global_tick (s.ticks + t) },
        [Ev.thread_sleep (s.ticks + t)]) ∧
    (timer_sleep s t).1.intr = s.intr := by
  refine ⟨timer_sleep_eq s t, ?_⟩
  rw [timer_sleep_eq]

/-- C10: for a non-positive tick count `t`, `timer_sleep` neither
rejects nor short-circuits: it still lowers the watermark to
`min (global_tick, now + t)` — a value at or before the current tick —
and still registers the deadline `now + t` with `thread_sleep`, exactly
as for positive `t`. -/
theorem C10_nonpositive_sleep (s : TimerState) (t : Int) (h : t ≤ 0) :
    timer_sleep s t =
      ({ s with global_tick := min s.global_tick (s.ticks + t) },
        [Ev.thread_sleep (s.ticks + t)]) ∧
    s.ticks + t ≤ s.ticks := by
  refine ⟨timer_sleep_eq s t, ?_⟩
  omega

/-- Witness for C10 at `t = -3` from boot. -/
theorem C10_nonpositive_sleep_witness :
    (timer_sleep bootState (-3) =
      ({ bootState with
          global_tick := min bootState.global_tick (bootState.ticks + (-3)) },
        [Ev.thread_sleep (bootState.ticks + (-3))]) ∧
      bootState.ticks + (-3) ≤ bootState.ticks) :=
  C10_nonpositive_sleep bootState (-3) (by decide)

/-- C1 counterexample: with the counter at 299 and the watermark at
300, the delivered tick raises the counter to 300, so the
post-increment count is greater than or equal to the watermark, yet the
handler does not invoke `wake_up` — the code tests
`global_tick < ticks`, not `ticks >= global_tick`. -/
theorem C1_counterexample :
    (({ ticks := 299, global_tick := 300, loops_per_tick := 0,
        intr := IntrLevel.ON } : TimerState).global_tick ≤ 299 + 1) ∧
    Ev.wake_up (299 + 1) ∉
      (timer_interrupt
        { ticks := 299, global_tick := 300, loops_per_tick := 0,
          intr := IntrLevel.ON }).2 := by
  decide

/-- C1 (amended): each delivered tick increments the counter by one,
and the handler invokes `wake_up` if and only if the post-increment
count is strictly greater than the watermark; hence for a sleep due at
tick `D` the wake-sweep first fires on the tick that raises the counter
to `D + 1`, one tick after the first tick at which the counter reaches
`D`. -/
theorem C1_wake_on_strictly_greater (s : TimerState) :
    (timer_interrupt s).1.ticks = s.ticks + 1 ∧
    (Ev.wake_up (s.ticks + 1) ∈ (timer_interrupt s).2 ↔
      s.global_tick < s.ticks + 1) := by
  constructor
  · rfl
  · by_cases h : s.global_tick < s.ticks + 1 <;>
      simp [timer_interrupt, h]

/-- C2 counterexample: `timer_usleep (1)` at 100 Hz with
`loops_per_tick = 1000000` takes the sub-tick branch with
`denom = 1000000`, an exact multiple of 1000, and passes 1000000 * 1 /
1000 * 100 / 1000 = 100 iterations to `busy_wait`, whereas the spec's
stated grouping — dividing `num` by 1000 before the multiplication —
yields 0. -/
theorem C2_counterexample :
    Int.tdiv ((1 : Int) * 100) (1000 * 1000) = 0 ∧
    Int.tmod ((1000 * 1000 : Int)) 1000 = 0 ∧
    timer_usleep 100 lptState 1 =
      Except.ok (lptState, [Ev.busy_wait 100]) ∧
    busy_wait_loops_claim 1000000 1 100 (1000 * 1000) = 0 ∧
    (100 : Int) ≠ 0 := by
  refine ⟨by decide, by decide, rfl, by decide, by decide⟩

/-- C2 (amended): in the sub-tick branch (computed ticks equal to zero)
with `denom` an exact multiple of 1000, the iteration count passed to
`busy_wait` is `loops_per_tick * num / 1000 * TIMER_FREQ / (denom /
1000)` evaluated left to right: `loops_per_tick * num` is computed
first, then divided by 1000, then multiplied by `TIMER_FREQ`, then
divided by `denom / 1000`. -/
theorem C2_busy_wait_grouping (freq : Int) (s : TimerState)
    (num denom : Int) (hi : s.intr = IntrLevel.ON)
    (ht : Int.tdiv (num * freq) denom = 0)
    (hd : Int.tmod denom 1000 = 0) :
    real_time_sleep freq s num denom =
      Except.ok (s,
        [Ev.busy_wait
          (Int.tdiv (Int.tdiv ((s.loops_per_tick : Int) * num) 1000 * freq)
            (Int.tdiv denom 1000))]) := by
  simp [real_time_sleep, hi, ht, hd]

/-- Witness for C2 (amended) at the `timer_usleep (1)` instance. -/
theorem C2_busy_wait_grouping_witness :
    real_time_sleep 100 lptState 1 (1000 * 1000) =
      Except.ok (lptState,
        [Ev.busy_wait
          (Int.tdiv
            (Int.tdiv ((lptState.loops_per_tick : Int) * 1) 1000 * 100)
            (Int.tdiv (1000 * 1000) 1000))]) :=
  C2_busy_wait_grouping 100 lptState 1 (1000 * 1000) rfl (by decide)
    (by decide)

/-- C7: `real_time_sleep` converts `num / denom` seconds into
`num * TIMER_FREQ / denom` ticks with C division (truncating toward
zero); when the result is positive it delegates to `timer_sleep` and
emits no `busy_wait`, and otherwise (with `denom` a multiple of 1000)
it busy-waits and emits no `thread_sleep`.  Concretely at 100 Hz,
`timer_msleep (1000)` converts to exactly 100 ticks and takes the
blocking path, while `timer_usleep (1)` takes the busy-wait path. -/
theorem C7_conversion_paths (freq : Int) (s : TimerState)
    (num denom : Int) (hi : s.intr = IntrLevel.ON) :
    (0 < Int.tdiv (num * freq) denom →
      real_time_sleep freq s num denom =
        Except.ok
          ({ s with
              global_tick :=
                min s.global_tick (s.ticks + Int.tdiv (num * freq) denom) },
            [Ev.thread_sleep (s.ticks + Int.tdiv (num * freq) denom)])) ∧
    (Int.tdiv (num * freq) denom ≤ 0 → Int.tmod denom 1000 = 0 →
      real_time_sleep freq s num denom =
        Except.ok (s,
          [Ev.busy_wait
            (Int.tdiv
              (Int.tdiv ((s.loops_per_tick : Int) * num) 1000 * freq)
              (Int.tdiv denom 1000))])) ∧
    timer_msleep 100 s 1000 =
      Except.ok
        ({ s with global_tick := min s.global_tick (s.ticks + 100) },
          [Ev.thread_sleep (s.ticks + 100)]) ∧
    timer_usleep 100 s 1 =
      Except.ok (s,
        [Ev.busy_wait
          (Int.tdiv (Int.tdiv ((s.loops_per_tick : Int) * 1) 1000 * 100)
            1000)]) := by
  refine ⟨?_, ?_, ?_, ?_⟩
  · intro h
    simp [real_time_sleep, hi, h, timer_sleep_eq]
  · intro h1 h2
    simp [real_time_sleep, hi, h2, not_lt.mpr h1]
  · have h100 : Int.tdiv (100000 : Int) 1000 = 100 := by decide
    simp [timer_msleep, real_time_sleep, hi, h100, timer_sleep_eq]
  · have h0 : Int.tdiv (100 : Int) 1000000 = 0 := by decide
    have hm : Int.tmod (1000000 : Int) 1000 = 0 := by decide
    have hq : Int.tdiv (1000000 : Int) 1000 = 1000 := by decide
    simp [timer_usleep, real_time_sleep, hi, h0, hm, hq]

/-- Witness for C7 at a concrete post-calibration state. -/
theorem C7_conversion_paths_witness :
    timer_msleep 100 lptState 1000 =
      Except.ok
        ({ lptState with
            global_tick := min lptState.global_tick (lptState.ticks + 100) },
          [Ev.thread_sleep (lptState.ticks + 100)]) :=
  (C7_conversion_paths 100 lptState 7 1000 rfl).2.2.1

/-- C8: with interrupts masked at entry, `timer_calibrate` and
`real_time_sleep` (hence `timer_msleep`, `timer_usleep`,
`timer_nsleep`) halt on the failed `ASSERT (intr_get_level () ==
INTR_ON)` instead of returning to the caller, and the halt state is the
entry state: neither the tick counter, the watermark, nor
`loops_per_tick` has been modified. -/
theorem C8_assert_when_masked (freq : Int) (s : TimerState)
    (tml : Nat → Bool) (num denom ms us ns : Int)
    (h : s.intr = IntrLevel.OFF) :
    timer_calibrate s tml = Except.error s ∧
    real_time_sleep freq s num denom = Except.error s ∧
    timer_msleep freq s ms = Except.error s ∧
    timer_usleep freq s us = Except.error s ∧
    timer_nsleep freq s ns = Except.error s := by
  refine ⟨?_, ?_, ?_, ?_, ?_⟩ <;>
    simp [timer_calibrate, real_time_sleep, timer_msleep, timer_usleep,
      timer_nsleep, h]

/-- Witness for C8 at the masked boot state. -/
theorem C8_assert_when_masked_witness :
    timer_calibrate offState (thresholdOracle 3500) =
        Except.error offState ∧
      real_time_sleep 100 offState 1 1000 = Except.error offState ∧
      timer_msleep 100 offState 1 = Except.error offState ∧
      timer_usleep 100 offState 1 = Except.error offState ∧
      timer_nsleep 100 offState 1 = Except.error offState :=
  C8_assert_when_masked 100 offState (thresholdOracle 3500) 1 1000 1 1 1 rfl

set_option maxRecDepth 8000 in
/-- C9: for every `TIMER_FREQ` in the build-time range `[19, 1000]`,
the divisor `(1193180 + TIMER_FREQ / 2) / TIMER_FREQ` computed by
`timer_init` is stored into the `uint16_t` without truncation and
equals the nearest integer to `1193180 / TIMER_FREQ` with ties rounded
up. -/
theorem C9_divisor_rounds_to_nearest :
    ∀ freq : Nat, freq ≤ 1000 → 19 ≤ freq →
      timer_init_count freq = (1193180 + freq / 2) / freq ∧
      timer_init_count freq = roundTiesUp 1193180 freq ∧
      timer_init_count freq < 65536 := by
  decide

/-- Witness for C9 at the default frequency of 100 Hz. -/
theorem C9_divisor_rounds_to_nearest_witness :
    timer_init_count 100 = (1193180 + 100 / 2) / 100 ∧
      timer_init_count 100 = roundTiesUp 1193180 100 ∧
      timer_init_count 100 < 65536 :=
  C9_divisor_rounds_to_nearest 100 (by decide) (by decide)

/-- Effect of a successful `real_time_sleep` on the shared state: the
tick counter is untouched, and the watermark is folded down by exactly
the deadlines handed to `thread_sleep`. -/
theorem real_time_sleep_effect (freq : Int) (s : TimerState)
    (num denom : Int) (s1 : TimerState) (e1 : List Ev)
    (h : real_time_sleep freq s num denom = Except.ok (s1, e1)) :
    s1.ticks = s.ticks ∧
    s1.global_tick = List.foldl min s.global_tick (sleepDeadlines e1) := by
  simp only [real_time_sleep] at h
  split at h
  · split at h
    · rw [timer_sleep_eq] at h
      simp only [Except.ok.injEq, Prod.mk.injEq] at h
      obtain ⟨h1, h2⟩ := h
      subst h1
      subst h2
      simp [sleepDeadlines]
    · split at h
      · simp only [Except.ok.injEq, Prod.mk.injEq] at h
        obtain ⟨h1, h2⟩ := h
        subst h1
        subst h2
        simp [sleepDeadlines]
      · exact absurd h (by simp)
  · exact absurd h (by simp)

/-- Effect of one successful timer-core operation on the shared state:
the counter advances exactly on delivered interrupts, and the watermark
is folded down by exactly the deadlines the operation registers. -/
theorem stepE_effect (freq : Int) (s : TimerState) (op : Op)
    (s1 : TimerState) (e1 : List Ev)
    (h : stepE freq s op = Except.ok (s1, e1)) :
    s1.ticks = s.ticks + (countInterrupts [op] : Int) ∧
    s1.global_tick = List.foldl min s.global_tick (sleepDeadlines e1) := by
  cases op with
  | interrupt =>
    simp only [stepE, timer_interrupt, Except.ok.injEq, Prod.mk.injEq] at h
    obtain ⟨h1, h2⟩ := h
    subst h1
    subst h2
    refine ⟨by simp [countInterrupts], ?_⟩
    by_cases hc : s.global_tick < s.ticks + 1 <;> simp [sleepDeadlines, hc]
  | sleep t =>
    simp only [stepE, Except.ok.injEq] at h
    rw [timer_sleep_eq] at h
    simp only [Prod.mk.injEq] at h
    obtain ⟨h1, h2⟩ := h
    subst h1
    subst h2
    simp [countInterrupts, sleepDeadlines]
  | readTicks =>
    simp only [stepE, timer_ticks, intr_disable, intr_set_level,
      Except.ok.injEq, Prod.mk.injEq] at h
    obtain ⟨h1, h2⟩ := h
    subst h1
    subst h2
    simp [countInterrupts, sleepDeadlines]
  | elapsed since =>
    simp only [stepE, timer_elapsed, timer_ticks, intr_disable,
      intr_set_level, Except.ok.injEq, Prod.mk.injEq] at h
    obtain ⟨h1, h2⟩ := h
    subst h1
    subst h2
    simp [countInterrupts, sleepDeadlines]
  | printStats =>
    simp only [stepE, timer_ticks, intr_disable, intr_set_level,
      Except.ok.injEq, Prod.mk.injEq] at h
    obtain ⟨h1, h2⟩ := h
    subst h1
    subst h2
    simp [countInterrupts, sleepDeadlines]
  | calibrate tml =>
    simp only [stepE] at h
    cases hc : timer_calibrate s tml with
    | error e =>
      rw [hc] at h
      simp at h
    | ok sc =>
      rw [hc] at h
      simp only [Except.ok.injEq, Prod.mk.injEq] at h
      obtain ⟨h1, h2⟩ := h
      subst h1
      subst h2
      unfold timer_calibrate at hc
      split at hc
      · split at hc
        · exact absurd hc (by simp)
        · simp only [Except.ok.injEq] at hc
          subst hc
          simp [countInterrupts, sleepDeadlines]
      · exact absurd hc (by simp)
  | msleep ms =>
    obtain ⟨h1, h2⟩ := real_time_sleep_effect freq s ms 1000 s1 e1 h
    exact ⟨by simp [countInterrupts, h1], h2⟩
  | usleep us =>
    obtain ⟨h1, h2⟩ := real_time_sleep_effect freq s us (1000 * 1000) s1 e1 h
    exact ⟨by simp [countInterrupts, h1], h2⟩
  | nsleep ns =>
    obtain ⟨h1, h2⟩ :=
      real_time_sleep_effect freq s ns (1000 * 1000 * 1000) s1 e1 h
    exact ⟨by simp [countInterrupts, h1], h2⟩

/-- The deadlines of a concatenated trace. -/
theorem sleepDeadlines_append (e1 e2 : List Ev) :
    sleepDeadlines (e1 ++ e2) = sleepDeadlines e1 ++ sleepDeadlines e2 := by
  simp [sleepDeadlines]

/-- Effect of a successful run: the counter advances by the number of
delivered interrupts, and the watermark is the fold of `min` over every
deadline registered in the trace. -/
theorem run_effect (freq : Int) (ops : List Op) :
    ∀ (s s2 : TimerState) (tr : List Ev),
      run freq s ops = Except.ok (s2, tr) →
      s2.ticks = s.ticks + (countInterrupts ops : Int) ∧
      s2.global_tick = List.foldl min s.global_tick (sleepDeadlines tr) := by
  induction ops with
  | nil =>
    intro s s2 tr h
    simp only [run, Except.ok.injEq, Prod.mk.injEq] at h
    obtain ⟨h1, h2⟩ := h
    subst h1
    subst h2
    simp [countInterrupts, sleepDeadlines]
  | cons op ops ih =>
    intro s s2 tr h
    simp only [run] at h
    cases hs : stepE freq s op with
    | error e =>
      simp only [hs] at h
      exact absurd h (by simp)
    | ok pe =>
      obtain ⟨s1, e1⟩ := pe
      simp only [hs] at h
      cases hr : run freq s1 ops with
      | error e =>
        simp only [hr] at h
        exact absurd h (by simp)
      | ok pr =>
        obtain ⟨s2x, e2⟩ := pr
        simp only [hr] at h
        simp only [Except.ok.injEq, Prod.mk.injEq] at h
        obtain ⟨h1, h2⟩ := h
        subst h1
        subst h2
        obtain ⟨t1, g1⟩ := stepE_effect freq s op s1 e1 hs
        obtain ⟨t2, g2⟩ := ih s1 s2x e2 hr
        have hcnt : countInterrupts (op :: ops) =
            countInterrupts [op] + countInterrupts ops := by
          cases op <;> simp [countInterrupts, Nat.add_comm]
        constructor
        · rw [t2, t1, hcnt]
          push_cast
          ring
        · rw [g2, g1, sleepDeadlines_append, List.foldl_append]

/-- The fold of `min` never exceeds its starting value. -/
theorem foldl_min_le_init (l : List Int) :
    ∀ a : Int, List.foldl min a l ≤ a := by
  induction l with
  | nil => intro a; simp
  | cons b l ih =>
    intro a
    calc List.foldl min (min a b) l ≤ min a b := ih (min a b)
    _ ≤ a := min_le_left a b

/-- The fold of `min` is a lower bound of every list element. -/
theorem foldl_min_le_mem (l : List Int) :
    ∀ (a d : Int), d ∈ l → List.foldl min a l ≤ d := by
  induction l with
  | nil => intro a d hd; cases hd
  | cons b l ih =>
    intro a d hd
    rcases List.mem_cons.mp hd with hb | hl
    · subst hb
      calc List.foldl min (min a d) l ≤ min a d := foldl_min_le_init l (min a d)
      _ ≤ d := min_le_right a d
    · exact ih (min a b) d hl

/-- C6: the tick counter starts at 0 at boot; across any successful
run of timer-core operations, `timer_ticks ()` reads the initial count
plus exactly one per delivered interrupt — no other operation changes
the counter — and the counter is non-decreasing. -/
theorem C6_tick_counter :
    bootState.ticks = 0 ∧
    ∀ (freq : Int) (s : TimerState) (ops : List Op) (s2 : TimerState)
      (tr : List Ev),
      run freq s ops = Except.ok (s2, tr) →
      (timer_ticks s2).1 = s.ticks + (countInterrupts ops : Int) ∧
      s.ticks ≤ s2.ticks := by
  refine ⟨rfl, ?_⟩
  intro freq s ops s2 tr h
  obtain ⟨ht, _⟩ := run_effect freq ops s s2 tr h
  refine ⟨ht, ?_⟩
  rw [ht]
  exact le_add_of_nonneg_right (Int.natCast_nonneg _)

/-- Witness for C6: two delivered interrupts around a read, from boot. -/
theorem C6_tick_counter_witness :
    (timer_ticks (⟨2, INT64_MAX, 0, IntrLevel.ON⟩ : TimerState)).1 =
      bootState.ticks +
        (countInterrupts [Op.interrupt, Op.readTicks, Op.interrupt] : Int) ∧
    bootState.ticks ≤ (⟨2, INT64_MAX, 0, IntrLevel.ON⟩ : TimerState).ticks :=
  C6_tick_counter.2 100 bootState [Op.interrupt, Op.readTicks, Op.interrupt]
    (⟨2, INT64_MAX, 0, IntrLevel.ON⟩ : TimerState)
    [Ev.thread_tick, Ev.thread_tick] rfl

/-- C3: after any successful run, the watermark equals the fold of
`min` over the initial watermark (`INT64_MAX` at boot) and every
deadline registered by `timer_sleep` during the run; in particular it
is at most every registered deadline, so registering `d` and then
`d' < d` leaves the watermark at most `d'`. -/
theorem C3_watermark_is_min (freq : Int) (s : TimerState) (ops : List Op)
    (s2 : TimerState) (tr : List Ev)
    (h : run freq s ops = Except.ok (s2, tr)) :
    s2.global_tick = List.foldl min s.global_tick (sleepDeadlines tr) ∧
    ∀ d ∈ sleepDeadlines tr, s2.global_tick ≤ d := by
  obtain ⟨_, hg⟩ := run_effect freq ops s s2 tr h
  refine ⟨hg, ?_⟩
  intro d hd
  rw [hg]
  exact foldl_min_le_mem (sleepDeadlines tr) s.global_tick d hd

/-- Witness for C3: deadlines 300 then 270 registered at tick 250 leave
the watermark at 270. -/
theorem C3_watermark_is_min_witness :
    (⟨250, 270, 0, IntrLevel.ON⟩ : TimerState).global_tick =
      List.foldl min
        (⟨250, INT64_MAX, 0, IntrLevel.ON⟩ : TimerState).global_tick
        (sleepDeadlines [Ev.thread_sleep 300, Ev.thread_sleep 270]) ∧
    ∀ d ∈ sleepDeadlines [Ev.thread_sleep 300, Ev.thread_sleep 270],
      (⟨250, 270, 0, IntrLevel.ON⟩ : TimerState).global_tick ≤ d :=
  C3_watermark_is_min 100
    (⟨250, INT64_MAX, 0, IntrLevel.ON⟩ : TimerState)
    [Op.sleep 50, Op.sleep 20]
    (⟨250, 270, 0, IntrLevel.ON⟩ : TimerState)
    [Ev.thread_sleep 300, Ev.thread_sleep 270] rfl

/-- Shifting a power of two right by its lower exponent. -/
theorem pow_two_shiftRight (m n : Nat) : (2 : Nat) ^ (m + n) >>> n = 2 ^ m := by
  simp [Nat.shiftRight_eq_div_pow, Nat.pow_add,
    Nat.mul_div_cancel, Nat.pos_pow_of_pos]

/-- Powers of two with distinct exponents are distinct. -/
theorem pow_two_ne (a b : Nat) (h : a ≠ b) : (2 : Nat) ^ a ≠ 2 ^ b := by
  intro he
  exact h (Nat.pow_right_injective (by norm_num) he)

/-- The refinement loop on a power-of-two start: running from test bit
`2 ^ (s + d)` down to the stop bit `2 ^ s` visits exactly the bit
positions `s + d, ..., s + 1` in descending order, OR-ing each into the
accumulator exactly when the oracle reports false on
`high_bit ||| bit`. -/
theorem refineGo_powers (tml : Nat → Bool) (h : Nat) (s : Nat) :
    ∀ (d acc fuel : Nat), d < fuel →
      refineGo tml h (2 ^ s) (2 ^ (s + d)) acc fuel =
        List.foldl
          (fun a i => if tml (h ||| 2 ^ i) then a else a ||| 2 ^ i)
          acc (descExps s d) := by
  intro d
  induction d with
  | zero =>
    intro acc fuel hf
    cases fuel with
    | zero => cases hf
    | succ f =>
      simp [refineGo, descExps]
  | succ d ih =>
    intro acc fuel hf
    cases fuel with
    | zero => cases hf
    | succ f =>
      have hstep : s + (d + 1) = s + d + 1 := rfl
      rw [hstep]
      have hne : (2 : Nat) ^ (s + d + 1) ≠ 2 ^ s :=
        pow_two_ne (s + d + 1) s (by omega)
      have hsh : (2 : Nat) ^ (s + d + 1) >>> 1 = 2 ^ (s + d) :=
        pow_two_shiftRight (s + d) 1
      rw [refineGo, if_neg hne, hsh]
      simp only [descExps, List.foldl_cons]
      exact ih _ f (by omega)

/-- C4 counterexample: with the monotone oracle that reports an overrun
exactly above 3500 iterations, the geometric phase ends at
`high_bit = 2048`; the code's refinement (testing `high_bit | test_bit`
and stopping before `high_bit >> 10`) keeps every one of the nine bits
it tests and yields 4092, while the refinement described by the claim
(OR-ing into the accumulated value, down to `high_bit >> 10` inclusive)
yields 3500. -/
theorem C4_counterexample :
    calibrateCore (thresholdOracle 3500) = Except.ok 4092 ∧
    calibrateClaim (thresholdOracle 3500) = Except.ok 3500 ∧
    (4092 : Nat) ≠ 3500 := by
  refine ⟨rfl, rfl, by decide⟩

/-- C4 (amended): whenever the geometric phase survives with the
power-of-two `high_bit = 2 ^ (10 + j)`, the refinement phase tests the
nine bit positions `high_bit >> 1` down to `high_bit >> 9` (stopping
when the test bit reaches `high_bit >> 10`, which is never tested), the
tentative count measured for each bit is `high_bit | test_bit` — not
the accumulated value — and a bit is kept exactly when the measurement
reports false; the final count is therefore a 10-bit-precision
approximation. -/
theorem C4_refinement_bits (tml : Nat → Bool) (j : Nat)
    (hg : geomGo tml (1 <<< 10) 40 = Except.ok (2 ^ (10 + j))) :
    calibrateCore tml =
      Except.ok
        (List.foldl
          (fun a i => if tml (2 ^ (10 + j) ||| 2 ^ i) then a else a ||| 2 ^ i)
          (2 ^ (10 + j)) (descExps j 9)) := by
  unfold calibrateCore
  simp only [hg]
  have h10 : (2 : Nat) ^ (10 + j) >>> 10 = 2 ^ j := by
    rw [show 10 + j = j + 10 from Nat.add_comm 10 j]
    exact pow_two_shiftRight j 10
  have h1 : (2 : Nat) ^ (10 + j) >>> 1 = 2 ^ (j + 9) := by
    rw [show 10 + j = (j + 9) + 1 from by omega]
    exact pow_two_shiftRight (j + 9) 1
  rw [h10, h1]
  exact congrArg Except.ok
    (refineGo_powers tml (2 ^ (10 + j)) j 9 (2 ^ (10 + j)) 16 (by omega))

/-- Witness for C4 (amended) at the threshold-3500 oracle, whose
geometric phase yields `2048 = 2 ^ (10 + 1)`. -/
theorem C4_refinement_bits_witness :
    calibrateCore (thresholdOracle 3500) =
      Except.ok
        (List.foldl
          (fun a i =>
            if thresholdOracle 3500 (2 ^ (10 + 1) ||| 2 ^ i) then a
            else a ||| 2 ^ i)
          (2 ^ (10 + 1)) (descExps 1 9)) :=
  C4_refinement_bits (thresholdOracle 3500) 1 rfl

end Timer
